import Mathlib

/-!
Verification of the SmartLipikor docx export core (src/services/exportService.ts)
against its natural-language specification.

The TypeScript source is shallowly embedded: strings are lists of characters,
JS numbers that are integral are Nat, fractional layout values are ℚ, optional
fields are Option, and the regex tests of the source are spelled out as
decidable character-range / character-list tests on code points.
-/

namespace SmartLipikor

/-- The six character script classes of the source (ScriptType in
exportService.ts). -/
inductive ScriptType where
  | bengali
  | arabic
  | latin
  | digit
  | punct_space
  | other
deriving DecidableEq, Repr

/-- BENGALI_REGEX_CHAR = /[ঀ-৿]/ -/
def isBengaliChar (c : Char) : Bool :=
  decide (0x0980 ≤ c.toNat ∧ c.toNat ≤ 0x09FF)

/-- ARABIC_REGEX_CHAR = /[؀-ۿݐ-ݿࢠ-ࣿ]/ -/
def isArabicChar (c : Char) : Bool :=
  decide ((0x0600 ≤ c.toNat ∧ c.toNat ≤ 0x06FF) ∨
          (0x0750 ≤ c.toNat ∧ c.toNat ≤ 0x077F) ∨
          (0x08A0 ≤ c.toNat ∧ c.toNat ≤ 0x08FF))

/-- LATIN_REGEX_CHAR = /[a-zA-Z]/ -/
def isLatinChar (c : Char) : Bool :=
  decide ((0x41 ≤ c.toNat ∧ c.toNat ≤ 0x5A) ∨ (0x61 ≤ c.toNat ∧ c.toNat ≤ 0x7A))

/-- DIGIT_REGEX_CHAR = /[0-9]/ -/
def isDigitChar (c : Char) : Bool :=
  decide (0x30 ≤ c.toNat ∧ c.toNat ≤ 0x39)

/-- The code points of the JS regex whitespace class \s that are not in the
range U+2000..U+200A (that range is tested separately). -/
def jsWhitespaceCodes : List Nat :=
  [0x09, 0x0A, 0x0B, 0x0C, 0x0D, 0x20, 0xA0, 0x1680,
   0x2028, 0x2029, 0x202F, 0x205F, 0x3000, 0xFEFF]

/-- The code points of the explicit punctuation set of
COMMON_PUNCT_SPACE_REGEX_CHAR: . , ! ? ; : apostrophe quote ( ) curly braces
[ ] - @ # $ % ^ & * + = _ < > / backslash | ~ backquote. -/
def punctCodes : List Nat :=
  [0x2E, 0x2C, 0x21, 0x3F, 0x3B, 0x3A, 0x27, 0x22, 0x28, 0x29, 0x7B, 0x7D,
   0x5B, 0x5D, 0x2D, 0x40, 0x23, 0x24, 0x25, 0x5E, 0x26, 0x2A, 0x2B, 0x3D,
   0x5F, 0x3C, 0x3E, 0x2F, 0x5C, 0x7C, 0x7E, 0x60]

/-- COMMON_PUNCT_SPACE_REGEX_CHAR = /[\s.,!?;:'"(){}\[\]\-@#$%^&*+=_<>/\\|~`]/ -/
def isPunctSpaceChar (c : Char) : Bool :=
  jsWhitespaceCodes.contains c.toNat ||
  decide (0x2000 ≤ c.toNat ∧ c.toNat ≤ 0x200A) ||
  punctCodes.contains c.toNat

/-- detectCharScript from the source: the regexes are tried in the order
bengali, arabic, latin, digit, punct_space; anything else is other. -/
def detectCharScript (c : Char) : ScriptType :=
  if isBengaliChar c then .bengali
  else if isArabicChar c then .arabic
  else if isLatinChar c then .latin
  else if isDigitChar c then .digit
  else if isPunctSpaceChar c then .punct_space
  else .other

/-- The Language union type of the data model. -/
inductive Language where
  | en
  | bn
  | ar
  | unknown
deriving DecidableEq, Repr

/-- LATIN_REGEX_CHAR.test(lineText): the line contains a latin character. -/
def lineHasLatin (cs : List Char) : Bool := cs.any isLatinChar

/-- ARABIC_REGEX_CHAR.test(lineText): the line contains an arabic character. -/
def lineHasArabic (cs : List Char) : Bool := cs.any isArabicChar

/-- BENGALI_REGEX_CHAR.test(lineText): the line contains a bengali character. -/
def lineHasBengali (cs : List Char) : Bool := cs.any isBengaliChar

/-- The first-character context inference of createTextRunsFromSpans: if the
first character of the line is punct_space, other or digit, the starting
script is inferred from the declared language and the content of the whole
line; otherwise it is the first character's own script. -/
def initialScript (lang : Language) (firstChar : Char) (line : List Char) : ScriptType :=
  let fs := detectCharScript firstChar
  if fs = .punct_space ∨ fs = .other ∨ fs = .digit then
    if lang = .bn ∧ (lineHasLatin line || lineHasArabic line) = false then .bengali
    else if lang = .ar ∧ (lineHasLatin line || lineHasBengali line) = false then .arabic
    else .latin
  else fs

/-- One segmentation sub-run: a substring together with its script class. -/
structure Segment where
  text : List Char
  script : ScriptType
deriving DecidableEq, Repr

/-- The loop state of the segmentation walk: already emitted segments, the
text of the segment under construction, and its script. -/
structure SegState where
  segs : List Segment
  cur : List Char
  curScript : ScriptType
deriving DecidableEq, Repr

/-- Characters of class punct_space or digit are absorbed into the current
run instead of opening a new one. -/
def absorbedClass : ScriptType → Bool
  | .punct_space => true
  | .digit => true
  | _ => false

/-- The body of the for-loop of createTextRunsFromSpans: one character is
either appended to the current segment when its effective script agrees
with the current one, or it closes the current segment (pushed only when
non-empty) and opens a new one carrying the character's own script. -/
def segStep (st : SegState) (c : Char) : SegState :=
  let charScript := detectCharScript c
  let eff := if absorbedClass charScript then st.curScript else charScript
  if eff = st.curScript then
    { st with cur := st.cur ++ [c] }
  else
    { segs := if st.cur ≠ [] then st.segs ++ [⟨st.cur, st.curScript⟩] else st.segs,
      cur := [c],
      curScript := charScript }

/-- The push of the last segment after the loop, guarded by non-emptiness. -/
def flushState (st : SegState) : List Segment :=
  if st.cur ≠ [] then st.segs ++ [⟨st.cur, st.curScript⟩] else st.segs

/-- The script segmentation of createTextRunsFromSpans for one line of text:
segments are built only when the line is non-empty, the walk starts with an
empty current segment whose script is the context-inferred starting script,
and the final segment is pushed at the end. -/
def segmentLine (lang : Language) (line : List Char) : List Segment :=
  match line with
  | [] => []
  | c :: _ =>
    flushState (line.foldl segStep ⟨[], [], initialScript lang c line⟩)

/-- Concatenation of the texts of a list of segments. -/
def segsText (segs : List Segment) : List Char :=
  (segs.map Segment.text).join

lemma segsText_append (a b : List Segment) :
    segsText (a ++ b) = segsText a ++ segsText b := by
  simp [segsText]

lemma segsText_single (t : List Char) (s : ScriptType) :
    segsText [⟨t, s⟩] = t := by
  simp [segsText]

lemma segStep_text (st : SegState) (c : Char) :
    segsText (segStep st c).segs ++ (segStep st c).cur
      = (segsText st.segs ++ st.cur) ++ [c] := by
  unfold segStep
  by_cases h : (if absorbedClass (detectCharScript c) then st.curScript
                else detectCharScript c) = st.curScript
  · simp [h]
  · simp only [h, if_false]
    by_cases hcur : st.cur = []
    · simp [hcur]
    · simp [hcur, segsText_append, segsText_single, List.append_assoc]

lemma segFold_text (line : List Char) (st : SegState) :
    segsText (line.foldl segStep st).segs ++ (line.foldl segStep st).cur
      = (segsText st.segs ++ st.cur) ++ line := by
  induction line generalizing st with
  | nil => simp
  | cons c cs ih =>
      rw [List.foldl_cons, ih, segStep_text, List.append_assoc]
      simp

/-- C4: concatenating the sub-run texts in order reproduces the input line,
for every declared language and every line, the empty line included. -/
theorem segmentLine_lossless (lang : Language) (line : List Char) :
    segsText (segmentLine lang line) = line := by
  cases line with
  | nil => rfl
  | cons c cs =>
      have h := segFold_text (c :: cs) ⟨[], [], initialScript lang c (c :: cs)⟩
      have hseg : segmentLine lang (c :: cs)
          = flushState ((c :: cs).foldl segStep ⟨[], [], initialScript lang c (c :: cs)⟩) := rfl
      rw [hseg]
      generalize hg : (c :: cs).foldl segStep ⟨[], [], initialScript lang c (c :: cs)⟩ = st at h
      unfold flushState
      by_cases hcur : st.cur = []
      · rw [if_neg (by simp [hcur])]
        rw [hcur, List.append_nil] at h
        simpa [segsText] using h
      · rw [if_pos hcur]
        rw [segsText_append, segsText_single]
        simpa [segsText] using h

/-- The loop invariant behind run-minimality: every emitted segment is
non-empty, adjacent emitted segments have distinct scripts, segments exist
only once the current text is non-empty, and the last emitted segment's
script differs from the current segment's script. -/
def MinInv (st : SegState) : Prop :=
  (∀ s ∈ st.segs, s.text ≠ []) ∧
  List.Chain' (fun a b => a.script ≠ b.script) st.segs ∧
  (st.cur = [] → st.segs = []) ∧
  (∀ s ∈ st.segs.getLast?, s.script ≠ st.curScript)

lemma split_facts (st : SegState) (c : Char)
    (h : ¬ (if absorbedClass (detectCharScript c) then st.curScript
            else detectCharScript c) = st.curScript) :
    absorbedClass (detectCharScript c) = false ∧ detectCharScript c ≠ st.curScript := by
  by_cases ha : absorbedClass (detectCharScript c)
  · simp [ha] at h
  · simp only [Bool.not_eq_true] at ha
    refine ⟨ha, ?_⟩
    simpa [ha] using h

lemma segStep_minInv (st : SegState) (c : Char) (h : MinInv st) :
    MinInv (segStep st c) := by
  obtain ⟨h1, h2, h3, h4⟩ := h
  unfold segStep
  by_cases heq : (if absorbedClass (detectCharScript c) then st.curScript
                  else detectCharScript c) = st.curScript
  · simp only [heq, if_true]
    exact ⟨h1, h2, fun hc => absurd hc (by simp), h4⟩
  · obtain ⟨-, hne⟩ := split_facts st c heq
    simp only [heq, if_false]
    by_cases hcur : st.cur = []
    · have hsegs : st.segs = [] := h3 hcur
      refine ⟨?_, ?_, ?_, ?_⟩ <;> simp [hcur, hsegs]
    · simp only [ne_eq, hcur, not_false_eq_true, if_true]
      refine ⟨?_, ?_, ?_, ?_⟩
      · intro s hs
        rcases List.mem_append.mp hs with hs | hs
        · exact h1 s hs
        · simp only [List.mem_singleton] at hs
          subst hs
          exact hcur
      · rw [List.chain'_append]
        refine ⟨h2, List.chain'_singleton _, ?_⟩
        intro a ha b hb
        simp only [List.head?_cons, Option.mem_def, Option.some.injEq] at hb
        subst hb
        exact h4 a ha
      · intro hc
        exact absurd hc (by simp)
      · intro s hs
        rw [List.getLast?_concat] at hs
        simp only [Option.mem_def, Option.some.injEq] at hs
        subst hs
        exact fun hcontra => hne hcontra.symm

lemma segFold_minInv (line : List Char) (st : SegState) (h : MinInv st) :
    MinInv (line.foldl segStep st) := by
  induction line generalizing st with
  | nil => exact h
  | cons c cs ih => exact ih _ (segStep_minInv st c h)

lemma flush_minimal (st : SegState) (h : MinInv st) :
    (∀ s ∈ flushState st, s.text ≠ []) ∧
    List.Chain' (fun a b => a.script ≠ b.script) (flushState st) := by
  obtain ⟨h1, h2, h3, h4⟩ := h
  unfold flushState
  by_cases hcur : st.cur = []
  · rw [if_neg (by simp [hcur])]
    exact ⟨h1, h2⟩
  · rw [if_pos hcur]
    constructor
    · intro s hs
      rcases List.mem_append.mp hs with hs | hs
      · exact h1 s hs
      · simp only [List.mem_singleton] at hs
        subst hs
        exact hcur
    · rw [List.chain'_append]
      refine ⟨h2, List.chain'_singleton _, ?_⟩
      intro a ha b hb
      simp only [List.head?_cons, Option.mem_def, Option.some.injEq] at hb
      subst hb
      exact h4 a ha

/-- C5: segmentation output is minimal: every sub-run has non-empty text and
no two adjacent sub-runs have the same script class. -/
theorem segmentLine_minimal (lang : Language) (line : List Char) :
    (∀ s ∈ segmentLine lang line, s.text ≠ []) ∧
    List.Chain' (fun a b => a.script ≠ b.script) (segmentLine lang line) := by
  cases line with
  | nil => exact ⟨by simp [segmentLine], by simp [segmentLine]⟩
  | cons c cs =>
      have hseg : segmentLine lang (c :: cs)
          = flushState ((c :: cs).foldl segStep ⟨[], [], initialScript lang c (c :: cs)⟩) := rfl
      rw [hseg]
      refine flush_minimal _ (segFold_minInv _ _ ?_)
      exact ⟨by simp, by simp, fun _ => rfl, by simp⟩

/-- Closed instance of segmentLine_minimal at a concrete line. -/
theorem segmentLine_minimal_witness :
    (∀ s ∈ segmentLine Language.en (("a1?").data), s.text ≠ []) ∧
    List.Chain' (fun a b => a.script ≠ b.script)
      (segmentLine Language.en (("a1?").data)) :=
  segmentLine_minimal Language.en (("a1?").data)

/-- A script class that is neither digit nor punct_space. -/
def NoNeutral (s : ScriptType) : Prop := s ≠ .digit ∧ s ≠ .punct_space

lemma absorbedClass_false (s : ScriptType) (h : absorbedClass s = false) :
    NoNeutral s := by
  cases s <;> simp_all [absorbedClass, NoNeutral]

lemma initialScript_noNeutral (lang : Language) (c : Char) (line : List Char) :
    NoNeutral (initialScript lang c line) := by
  unfold initialScript
  by_cases h : detectCharScript c = .punct_space ∨ detectCharScript c = .other ∨
      detectCharScript c = .digit
  · simp only [h, if_true]
    split_ifs <;> exact ⟨by simp, by simp⟩
  · simp only [h, if_false]
    push_neg at h
    exact ⟨h.2.2, h.1⟩

/-- The loop invariant for C10: neither the current segment's script nor any
emitted segment's script is a neutral class. -/
def NeutralInv (st : SegState) : Prop :=
  NoNeutral st.curScript ∧ ∀ s ∈ st.segs, NoNeutral s.script

lemma segStep_neutralInv (st : SegState) (c : Char) (h : NeutralInv st) :
    NeutralInv (segStep st c) := by
  obtain ⟨h1, h2⟩ := h
  unfold segStep
  by_cases heq : (if absorbedClass (detectCharScript c) then st.curScript
                  else detectCharScript c) = st.curScript
  · simp only [heq, if_true]
    exact ⟨h1, h2⟩
  · obtain ⟨habs, -⟩ := split_facts st c heq
    simp only [heq, if_false]
    refine ⟨absorbedClass_false _ habs, ?_⟩
    intro s hs
    by_cases hcur : st.cur = []
    · simp only [hcur, ne_eq, not_true_eq_false, if_false] at hs
      exact h2 s hs
    · simp only [ne_eq, hcur, not_false_eq_true, if_true] at hs
      rcases List.mem_append.mp hs with hs | hs
      · exact h2 s hs
      · simp only [List.mem_singleton] at hs
        subst hs
        exact h1

lemma segFold_neutralInv (line : List Char) (st : SegState) (h : NeutralInv st) :
    NeutralInv (line.foldl segStep st) := by
  induction line generalizing st with
  | nil => exact h
  | cons c cs ih => exact ih _ (segStep_neutralInv st c h)

/-- C10: no emitted sub-run carries the class digit or punct_space: neutral
characters are always absorbed and the context inference never assigns a
neutral class as a run's script. -/
theorem segmentLine_no_neutral (lang : Language) (line : List Char) :
    ∀ s ∈ segmentLine lang line, s.script ≠ .digit ∧ s.script ≠ .punct_space := by
  cases line with
  | nil => simp [segmentLine]
  | cons c cs =>
      have hseg : segmentLine lang (c :: cs)
          = flushState ((c :: cs).foldl segStep ⟨[], [], initialScript lang c (c :: cs)⟩) := rfl
      rw [hseg]
      have hinv : NeutralInv ((c :: cs).foldl segStep ⟨[], [], initialScript lang c (c :: cs)⟩) :=
        segFold_neutralInv _ _ ⟨initialScript_noNeutral lang c (c :: cs), by simp⟩
      obtain ⟨h1, h2⟩ := hinv
      intro s hs
      unfold flushState at hs
      by_cases hcur :
          ((c :: cs).foldl segStep ⟨[], [], initialScript lang c (c :: cs)⟩).cur = []
      · rw [if_neg (not_not_intro hcur)] at hs
        exact h2 s hs
      · rw [if_pos hcur] at hs
        rcases List.mem_append.mp hs with hs | hs
        · exact h2 s hs
        · simp only [List.mem_singleton] at hs
          subst hs
          exact h1

/-- Closed instance of segmentLine_no_neutral: the single latin run of a
one-letter line is neither a digit run nor a punct_space run. -/
theorem segmentLine_no_neutral_witness :
    (Segment.mk (("a").data) ScriptType.latin).script ≠ ScriptType.digit ∧
    (Segment.mk (("a").data) ScriptType.latin).script ≠ ScriptType.punct_space :=
  segmentLine_no_neutral Language.en (("a").data)
    ⟨("a").data, ScriptType.latin⟩ (by decide)

lemma neutral_not_scripts (c : Char)
    (h : detectCharScript c = .punct_space ∨ detectCharScript c = .digit) :
    isBengaliChar c = false ∧ isArabicChar c = false ∧ isLatinChar c = false := by
  unfold detectCharScript at h
  by_cases h1 : isBengaliChar c <;> by_cases h2 : isArabicChar c <;>
    by_cases h3 : isLatinChar c <;> simp_all

lemma segFold_all_absorbed (rest : List Char) (st : SegState)
    (hall : ∀ c ∈ rest, absorbedClass (detectCharScript c) = true) :
    rest.foldl segStep st = { st with cur := st.cur ++ rest } := by
  induction rest generalizing st with
  | nil => simp
  | cons c cs ih =>
      have hc := hall c (List.mem_cons_self c cs)
      have hstep : segStep st c = { st with cur := st.cur ++ [c] } := by
        unfold segStep
        simp [hc]
      rw [List.foldl_cons, hstep, ih _ (fun x hx => hall x (List.mem_cons_of_mem c hx))]
      simp

/-- C6: a non-empty line whose characters are all neutral or digit, under
declared language bn, segments into exactly one sub-run of class bengali. -/
theorem segmentLine_all_neutral_bn (line : List Char) (hne : line ≠ [])
    (hall : ∀ c ∈ line, detectCharScript c = .punct_space ∨ detectCharScript c = .digit) :
    segmentLine Language.bn line = [⟨line, .bengali⟩] := by
  cases line with
  | nil => exact absurd rfl hne
  | cons c cs =>
      have hnl : lineHasLatin (c :: cs) = false := by
        rw [lineHasLatin, List.any_eq_false]
        intro x hx
        simpa using (neutral_not_scripts x (hall x hx)).2.2
      have hna : lineHasArabic (c :: cs) = false := by
        rw [lineHasArabic, List.any_eq_false]
        intro x hx
        simpa using (neutral_not_scripts x (hall x hx)).2.1
      have hinit : initialScript Language.bn c (c :: cs) = .bengali := by
        unfold initialScript
        have hc := hall c (List.mem_cons_self c cs)
        rw [if_pos (by rcases hc with hc | hc <;> simp [hc])]
        rw [if_pos (by simp [hnl, hna])]
      have habs : ∀ x ∈ c :: cs, absorbedClass (detectCharScript x) = true := by
        intro x hx
        rcases hall x hx with h | h <;> rw [h] <;> rfl
      have hseg : segmentLine Language.bn (c :: cs)
          = flushState ((c :: cs).foldl segStep ⟨[], [], initialScript Language.bn c (c :: cs)⟩) := rfl
      rw [hseg, hinit, segFold_all_absorbed _ _ habs]
      unfold flushState
      simp

/-- Closed instance of segmentLine_all_neutral_bn at a concrete all-neutral
line of digits, a space and a hyphen. -/
theorem segmentLine_all_neutral_bn_witness :
    segmentLine Language.bn (("12 -").data)
      = [⟨("12 -").data, ScriptType.bengali⟩] :=
  segmentLine_all_neutral_bn (("12 -").data) (by decide) (by decide)

/-- C2 counterexample: the span text of scenario 2 under declared language bn
does not segment into three runs: digits and neutral characters are absorbed
into the latin run, so there are only two runs. -/
theorem price_line_not_three_runs :
    (segmentLine Language.bn (("Price: 100Tk ৫০০").data)).length ≠ 3 := by
  decide

/-- C2 amended: the span text of scenario 2 under declared language bn
segments into exactly two runs: the latin run with the neutral characters and
ASCII digits absorbed, then the bengali run (the bengali digits lie in the
bengali Unicode block, hence stay in the bengali run). -/
theorem price_line_segments :
    segmentLine Language.bn (("Price: 100Tk ৫০০").data)
      = [⟨("Price: 100Tk ").data, .latin⟩, ⟨("৫০০").data, .bengali⟩] := by
  decide

/-- The two target consumer profiles of the generator. -/
inductive TargetApp where
  | word
  | gdocs
deriving DecidableEq, Repr

/-- The curated arabic font list of the source (commonArabicFonts). -/
def commonArabicFonts : List String :=
  ["Noto Naskh Arabic", "Noto Sans Arabic", "Cairo", "Lateef", "Noto Kufi Arabic",
   "Traditional Arabic", "Arial Unicode MS"]

/-- mapFontFamilyToDocx from the source. The source's four unused
(underscore-prefixed) parameters - the segment text, the span font weight,
the block font family suggestion and the block language - are omitted here,
exactly because the source never reads them. The JS truthiness guard on the
hint before the curated-list lookup is kept as the key-is-not-empty
conjunct. -/
def mapFontFamilyToDocx (detectedSegmentScript : ScriptType)
    (spanFontFamilyKeyFromAI : Option String)
    (targetApplication : TargetApp) : String :=
  match targetApplication with
  | .word =>
      match detectedSegmentScript with
      | .bengali => "SutonnyOMJ"
      | .latin => "Times New Roman"
      | .digit => "Times New Roman"
      | .punct_space => "Times New Roman"
      | .arabic =>
          match spanFontFamilyKeyFromAI with
          | some key =>
              if key ≠ "" ∧ key ∈ commonArabicFonts then key
              else if key = "arabic-naskh" ∨ key = "arabic" then "Traditional Arabic"
              else if key = "arabic-kufi" then "Traditional Arabic"
              else if key = "arabic-modern-sans" then "Arial"
              else "Traditional Arabic"
          | none => "Traditional Arabic"
      | .other => "Calibri"
  | .gdocs =>
      match detectedSegmentScript with
      | .bengali => "Tiro Bangla"
      | .latin => "Open Sans"
      | .digit => "Open Sans"
      | .punct_space => "Open Sans"
      | .arabic =>
          match spanFontFamilyKeyFromAI with
          | some key =>
              if key ≠ "" ∧ key ∈ commonArabicFonts then key
              else "Noto Naskh Arabic"
          | none => "Noto Naskh Arabic"
      | .other => "Open Sans"

/-- The curated font list the spec's rule (1) can consult for a script: the
source defines such a list only for arabic; there is no curated bengali
list. -/
def curatedFontsFor (script : ScriptType) : List String :=
  match script with
  | .arabic => commonArabicFonts
  | _ => []

/-- The profile's fixed default font for a script class: what the code
returns when no author hint is supplied. -/
def profileDefaultFont (script : ScriptType) (target : TargetApp) : String :=
  mapFontFamilyToDocx script none target

/-- The resolution rule exactly as C1 words it: the hint verbatim when it
matches a curated font name for the script, else the profile's fixed default
for the script class. -/
def specFontResolution (script : ScriptType) (hint : String) (target : TargetApp) : String :=
  if hint ∈ curatedFontsFor script then hint else profileDefaultFont script target

/-- C1 counterexample: under the word profile, an arabic run with author hint
arabic-modern-sans resolves to Arial, which is neither the hint verbatim nor
the profile's fixed arabic default Traditional Arabic, contradicting C1. -/
theorem font_hint_claim_false :
    mapFontFamilyToDocx ScriptType.arabic (some ("arabic-modern-sans")) TargetApp.word
      ≠ specFontResolution ScriptType.arabic ("arabic-modern-sans") TargetApp.word := by
  decide

/-- C1 amended resolution rule: as C1 states it, except that under the word
profile an arabic run whose hint is the generic key arabic-modern-sans
resolves to Arial (the generic keys arabic-naskh, arabic and arabic-kufi
resolve to the fixed default Traditional Arabic, so they need no exception);
bengali runs always get the fixed default, the curated bengali list being
empty. -/
def amendedFontResolution (script : ScriptType) (hint : Option String)
    (target : TargetApp) : String :=
  match script, hint with
  | .arabic, some key =>
      if key ∈ commonArabicFonts then key
      else if target = .word ∧ key = "arabic-modern-sans" then "Arial"
      else profileDefaultFont .arabic target
  | s, _ => profileDefaultFont s target

/-- C1 amended: for every bengali or arabic run, every author hint and both
profiles, the code's font resolution agrees with the amended rule. -/
theorem font_resolution_amended (script : ScriptType) (hint : Option String)
    (target : TargetApp) (h : script = .bengali ∨ script = .arabic) :
    mapFontFamilyToDocx script hint target = amendedFontResolution script hint target := by
  have hemp : ("" : String) ∉ commonArabicFonts := by decide
  rcases h with h | h <;> subst h <;> cases target <;> rcases hint with _ | key
  · rfl
  · rfl
  · rfl
  · rfl
  · rfl
  · -- arabic, word, some key
    show (if key ≠ "" ∧ key ∈ commonArabicFonts then key
          else if key = "arabic-naskh" ∨ key = "arabic" then "Traditional Arabic"
          else if key = "arabic-kufi" then "Traditional Arabic"
          else if key = "arabic-modern-sans" then "Arial"
          else "Traditional Arabic")
        = (if key ∈ commonArabicFonts then key
           else if TargetApp.word = TargetApp.word ∧ key = "arabic-modern-sans" then "Arial"
           else profileDefaultFont .arabic .word)
    by_cases hk : key ∈ commonArabicFonts
    · have hne : key ≠ "" := fun he => hemp (he ▸ hk)
      rw [if_pos ⟨hne, hk⟩, if_pos hk]
    · rw [if_neg (fun hc => hk hc.2), if_neg hk]
      by_cases h1 : key = "arabic-naskh" ∨ key = "arabic"
      · rcases h1 with h1 | h1 <;> subst h1 <;> decide
      · rw [if_neg h1]
        by_cases h2 : key = "arabic-kufi"
        · subst h2; decide
        · rw [if_neg h2]
          by_cases h3 : key = "arabic-modern-sans"
          · subst h3
            rw [if_pos rfl, if_pos ⟨rfl, rfl⟩]
          · rw [if_neg h3, if_neg (fun hc => h3 hc.2)]
            rfl
  · rfl
  · -- arabic, gdocs, some key
    show (if key ≠ "" ∧ key ∈ commonArabicFonts then key else "Noto Naskh Arabic")
        = (if key ∈ commonArabicFonts then key
           else if TargetApp.gdocs = TargetApp.word ∧ key = "arabic-modern-sans" then "Arial"
           else profileDefaultFont .arabic .gdocs)
    by_cases hk : key ∈ commonArabicFonts
    · have hne : key ≠ "" := fun he => hemp (he ▸ hk)
      rw [if_pos ⟨hne, hk⟩, if_pos hk]
    · rw [if_neg (fun hc => hk hc.2), if_neg hk,
          if_neg (fun hc => TargetApp.noConfusion hc.1)]
      rfl

/-- Closed instance of font_resolution_amended: a curated arabic hint under
the word profile. -/
theorem font_resolution_amended_witness :
    mapFontFamilyToDocx ScriptType.arabic (some ("Cairo")) TargetApp.word
      = amendedFontResolution ScriptType.arabic (some ("Cairo")) TargetApp.word :=
  font_resolution_amended ScriptType.arabic (some ("Cairo")) TargetApp.word (Or.inr rfl)

/-- The decimal digit character of a single digit value. -/
def digitChar (d : Nat) : Char :=
  match d with
  | 0 => '0'
  | 1 => '1'
  | 2 => '2'
  | 3 => '3'
  | 4 => '4'
  | 5 => '5'
  | 6 => '6'
  | 7 => '7'
  | 8 => '8'
  | _ => '9'

/-- The big-endian decimal digit characters of a natural number: the body of
the spec's canonical pt<N> token. -/
def decimalDigits (n : Nat) : List Char :=
  if n = 0 then [digitChar 0]
  else (Nat.digits 10 n).reverse.map digitChar

/-- The numeric value of a decimal digit character. -/
def digitVal (c : Char) : Nat := c.toNat - 0x30

/-- The value of a big-endian string of decimal digit characters, as
parseInt(-, 10) computes it on a matched \d+ group. -/
def parseDigits (cs : List Char) : Nat :=
  cs.foldl (fun acc c => acc * 10 + digitVal c) 0

/-- The test and capture of the regex /^pt(\d+)$/ of parsePtStringToNumber:
some N when the whole string is pt followed by one or more decimal digits of
value N, none otherwise. -/
def ptPattern (s : List Char) : Option Nat :=
  match s with
  | 'p' :: 't' :: rest =>
      if rest ≠ [] ∧ rest.all isDigitChar = true then some (parseDigits rest) else none
  | _ => none

/-- parsePtStringToNumber from the source: an absent token or a token that
does not match /^pt(\d+)$/ yields the supplied default; a matching token
yields its captured digits' value. The function is total: no error is ever
raised. -/
def parsePtStringToNumber (ptString : Option (List Char)) (defaultSize : Nat) : Nat :=
  match ptString with
  | none => defaultSize
  | some s =>
      match ptPattern s with
      | some n => n
      | none => defaultSize

lemma digitVal_digitChar (d : Nat) (h : d < 10) : digitVal (digitChar d) = d := by
  interval_cases d <;> rfl

lemma isDigitChar_digitChar (d : Nat) (h : d < 10) : isDigitChar (digitChar d) = true := by
  interval_cases d <;> rfl

lemma parseDigits_foldl (ds : List Nat) (acc : Nat) (h : ∀ d ∈ ds, d < 10) :
    (ds.map digitChar).foldl (fun a c => a * 10 + digitVal c) acc
      = ds.foldl (fun a d => a * 10 + d) acc := by
  induction ds generalizing acc with
  | nil => rfl
  | cons d tl ih =>
      simp only [List.map_cons, List.foldl_cons]
      rw [digitVal_digitChar d (h d (List.mem_cons_self d tl))]
      exact ih _ (fun x hx => h x (List.mem_cons_of_mem _ hx))

lemma foldl_eq_ofDigits (ds : List Nat) (acc : Nat) :
    ds.foldl (fun a d => a * 10 + d) acc
      = acc * 10 ^ ds.length + Nat.ofDigits 10 ds.reverse := by
  induction ds generalizing acc with
  | nil => simp
  | cons d tl ih =>
      simp only [List.foldl_cons, List.reverse_cons, List.length_cons]
      rw [ih, Nat.ofDigits_append, List.length_reverse, Nat.ofDigits_cons, Nat.ofDigits_nil]
      ring

lemma parseDigits_decimalDigits (n : Nat) : parseDigits (decimalDigits n) = n := by
  unfold decimalDigits
  by_cases h : n = 0
  · subst h; rfl
  · rw [if_neg h]
    unfold parseDigits
    rw [parseDigits_foldl _ _
        (fun d hd => Nat.digits_lt_base (by norm_num) (List.mem_reverse.mp hd))]
    rw [foldl_eq_ofDigits]
    simp [Nat.ofDigits_digits]

lemma decimalDigits_ne_nil (n : Nat) : decimalDigits n ≠ [] := by
  unfold decimalDigits
  by_cases h : n = 0
  · simp [h]
  · rw [if_neg h]
    simp [h, Nat.digits_ne_nil_iff_ne_zero]

lemma decimalDigits_all_digit (n : Nat) : (decimalDigits n).all isDigitChar = true := by
  unfold decimalDigits
  by_cases h : n = 0
  · rw [if_pos h]; rfl
  · rw [if_neg h, List.all_eq_true]
    intro c hc
    simp only [List.mem_map, List.mem_reverse] at hc
    obtain ⟨d, hd, rfl⟩ := hc
    exact isDigitChar_digitChar d (Nat.digits_lt_base (by norm_num) hd)

/-- C7: the canonical token pt<N> parses to N for every N and every default;
any token the pattern rejects, and an absent token, yield the default. -/
theorem parsePtStringToNumber_spec :
    (∀ N d, parsePtStringToNumber (some ('p' :: 't' :: decimalDigits N)) d = N) ∧
    (∀ s d, ptPattern s = none → parsePtStringToNumber (some s) d = d) ∧
    (∀ d, parsePtStringToNumber none d = d) := by
  refine ⟨?_, ?_, ?_⟩
  · intro N d
    have hp : ptPattern ('p' :: 't' :: decimalDigits N) = some N := by
      show (if decimalDigits N ≠ [] ∧ (decimalDigits N).all isDigitChar = true
            then some (parseDigits (decimalDigits N)) else none) = some N
      rw [if_pos ⟨decimalDigits_ne_nil N, decimalDigits_all_digit N⟩,
          parseDigits_decimalDigits]
    simp [parsePtStringToNumber, hp]
  · intro s d h
    simp [parsePtStringToNumber, h]
  · intro d
    rfl

/-- Closed instance of parsePtStringToNumber_spec: pt12 parses to 12, a
malformed token and an absent token fall back to the default. -/
theorem parsePtStringToNumber_spec_witness :
    parsePtStringToNumber (some ('p' :: 't' :: decimalDigits 12)) 5 = 12 ∧
    parsePtStringToNumber (some (("abc").data)) 7 = 7 ∧
    parsePtStringToNumber none 9 = 9 :=
  ⟨parsePtStringToNumber_spec.1 12 5,
   parsePtStringToNumber_spec.2.1 (("abc").data) 7 (by decide),
   parsePtStringToNumber_spec.2.2 9⟩

/-- Round-half-up of num/den on nonnegative values, as Math.round computes
it on the products the generator forms. -/
def roundDiv (num den : Nat) : Nat := (2 * num + den) / (2 * den)

/-- The test and captures of the regex /^(\d+(\.\d+)?)pt$/ of
parseUnitValueToTwips: integer part value, fraction digits' value and
fraction digit count. -/
def matchNumberPt (s : List Char) : Option (Nat × Nat × Nat) :=
  let intDigits := s.takeWhile isDigitChar
  let rest := s.dropWhile isDigitChar
  if intDigits = [] then none
  else
    match rest with
    | 'p' :: 't' :: [] => some (parseDigits intDigits, 0, 0)
    | '.' :: rest2 =>
        let fracDigits := rest2.takeWhile isDigitChar
        let rest3 := rest2.dropWhile isDigitChar
        if fracDigits = [] then none
        else
          match rest3 with
          | 'p' :: 't' :: [] =>
              some (parseDigits intDigits, parseDigits fracDigits, fracDigits.length)
          | _ => none
    | _ => none

/-- parseUnitValueToTwips from the source: an absent or empty token yields
the default, the literal 0 or 0pt yields zero, a <number>pt token yields
Math.round(points * 20) twips - modelled exactly over the parsed decimal as
round-half-up of (intPart + frac) * 20 - and anything else yields the
default. -/
def parseUnitValueToTwips (valueStr : Option (List Char))
    (defaultTwipsIfUnparsable : Nat) : Nat :=
  match valueStr with
  | none => defaultTwipsIfUnparsable
  | some s =>
      if s = [] then defaultTwipsIfUnparsable
      else if s = ("0").data ∨ s = ("0pt").data then 0
      else
        match matchNumberPt s with
        | some (ip, fv, fl) => roundDiv ((ip * 10 ^ fl + fv) * 20) (10 ^ fl)
        | none => defaultTwipsIfUnparsable

/-- The paragraph-like block type union of the data model. -/
inductive BlockType where
  | paragraph
  | heading1
  | heading2
  | heading3
  | heading4
  | heading5
  | heading6
  | listItem
deriving DecidableEq, Repr

/-- mapFontSizeToDocx from the source: the block type overrides the point
size only when a category is present and truthy but does not match
/^pt\d+$/; the result is in half-points. -/
def mapFontSizeToDocx (category : Option (List Char)) (blockType : Option BlockType) : Nat :=
  let ptSize := parsePtStringToNumber category 11
  let ptSize :=
    match category, blockType with
    | some c, some bt =>
        if c ≠ [] ∧ ptPattern c = none then
          match bt with
          | .heading1 => 22
          | .heading2 => 16
          | .heading3 => 13
          | _ => 11
        else ptSize
    | _, _ => ptSize
  ptSize * 2

/-- The TextAlign union of the data model. -/
inductive TextAlign where
  | left
  | center
  | right
  | justify
deriving DecidableEq, Repr

/-- The docx AlignmentType values the generator uses. -/
inductive DocxAlignment where
  | left
  | center
  | right
  | both
deriving DecidableEq, Repr

/-- mapAlignmentToDocx from the source; an absent alignment maps to left. -/
def mapAlignmentToDocx : Option TextAlign → DocxAlignment
  | some .left => .left
  | some .center => .center
  | some .right => .right
  | some .justify => .both
  | none => .left

/-- The docx HeadingLevel values. -/
inductive HeadingLevel where
  | h1
  | h2
  | h3
  | h4
  | h5
  | h6
deriving DecidableEq, Repr

/-- getHeadingLevelFromBlockType from the source. -/
def getHeadingLevelFromBlockType : BlockType → Option HeadingLevel
  | .heading1 => some .h1
  | .heading2 => some .h2
  | .heading3 => some .h3
  | .heading4 => some .h4
  | .heading5 => some .h5
  | .heading6 => some .h6
  | _ => none

/-- The textDecoration union of the data model. -/
inductive TextDecoration where
  | none
  | underline
  | lineThrough
deriving DecidableEq, Repr

/-- mapTextDecorationToDocx from the source, as the (underline, strike) flag
pair of the run. -/
def mapTextDecorationToDocx (decoration : Option TextDecoration) : Bool × Bool :=
  match decoration with
  | some .underline => (true, false)
  | some .lineThrough => (false, true)
  | _ => (false, false)

/-- The prefix parse of JS parseFloat restricted to the token shapes the
generator feeds it: an unsigned decimal numeral, possibly with a fractional
part, possibly followed by trailing junk such as a percent sign; a string
starting with neither a digit nor a dot-digit yields none (NaN). Signs,
exponents and leading whitespace do not occur in the generator's token
vocabulary and are not modelled. -/
def parseFloatPrefix (s : List Char) : Option ℚ :=
  let intD := s.takeWhile isDigitChar
  let rest := s.dropWhile isDigitChar
  match rest with
  | '.' :: rest2 =>
      let fracD := rest2.takeWhile isDigitChar
      if intD = [] ∧ fracD = [] then none
      else some ((parseDigits intD : ℚ) + (parseDigits fracD : ℚ) / ((10 : ℚ) ^ fracD.length))
  | _ => if intD = [] then none else some ((parseDigits intD : ℚ))

/-- Math.round on a nonnegative rational. -/
def ratRound (q : ℚ) : Nat := (Int.floor (q + 1/2)).toNat

/-- The docx lineRule values the generator uses. -/
inductive LineRule where
  | auto
  | exact
deriving DecidableEq, Repr

/-- A resolved line spacing: rule plus twips. -/
structure LineSpacing where
  lineRule : LineRule
  line : Nat
deriving DecidableEq, Repr

/-- getLineSpacing from the source: an absent, empty or normal line height
gives the auto rule at 1.15 times the font size in twips (fontSizePt * 23);
a positive numeric multiplier gives the exact rule at round(fontSize *
multiplier * 20) twips; anything unparsable falls back to the auto rule. -/
def getLineSpacing (lineHeightStr : Option (List Char)) (fontSizePt : Nat) : LineSpacing :=
  match lineHeightStr with
  | none => ⟨.auto, fontSizePt * 23⟩
  | some s =>
      if s = [] ∨ s = ("normal").data then ⟨.auto, fontSizePt * 23⟩
      else
        match parseFloatPrefix s with
        | some lh =>
            if 0 < lh then ⟨.exact, ratRound ((fontSizePt : ℚ) * lh * 20)⟩
            else ⟨.auto, fontSizePt * 23⟩
        | none => ⟨.auto, fontSizePt * 23⟩

/-- TextSpan from the data model; fontStyleAttributes and isUncertain are
never read by the generator and are omitted. -/
structure TextSpan where
  text : List Char
  isBold : Option Bool := none
  isItalic : Option Bool := none
  fontFamily : Option String := none
  fontWeight : Option Nat := none
  color : Option (List Char) := none
  textDecoration : Option TextDecoration := none
deriving DecidableEq, Repr

/-- A hexadecimal digit character, as the [0-9A-Fa-f] class. -/
def isHexDigitChar (c : Char) : Bool :=
  decide ((0x30 ≤ c.toNat ∧ c.toNat ≤ 0x39) ∨ (0x41 ≤ c.toNat ∧ c.toNat ≤ 0x46) ∨
          (0x61 ≤ c.toNat ∧ c.toNat ≤ 0x66))

/-- The span color guard of the source: truthy, not the literal default or
inherit, and matching /^#[0-9A-Fa-f]{3,8}$/. -/
def isValidSpanColor (s : List Char) : Bool :=
  decide (s ≠ ("default").data) && decide (s ≠ ("inherit").data) &&
  (match s with
   | '#' :: rest => decide (3 ≤ rest.length ∧ rest.length ≤ 8) && rest.all isHexDigitChar
   | _ => false)

/-- JS String.replace with a plain-string pattern removes only the first
occurrence; this is replace of the first # by nothing. -/
def replaceFirstHash : List Char → List Char
  | [] => []
  | c :: rest => if c = '#' then rest else c :: replaceFirstHash rest

/-- The color attribute emitted for a span: the validated color with its
hash stripped, or nothing. -/
def spanColorOf (span : TextSpan) : Option (List Char) :=
  match span.color with
  | some col => if isValidSpanColor col = true then some (replaceFirstHash col) else none
  | none => none

/-- The bold flag of a run: fontWeight >= 600 when fontWeight is truthy
(present and nonzero), else the isBold flag defaulted to false. -/
def runBold (span : TextSpan) : Bool :=
  match span.fontWeight with
  | some w => if w ≠ 0 then decide (600 ≤ w) else span.isBold.getD false
  | none => span.isBold.getD false

/-- One run of the output tree: an explicit line break or a styled text
run. -/
inductive DocxRun where
  | lineBreak
  | textRun (text : List Char) (bold : Option Bool) (italics : Option Bool)
      (font : Option String) (size : Option Nat) (color : Option (List Char))
      (underline : Bool) (strike : Bool)
deriving DecidableEq, Repr

/-- originalText.split on the regex matching the two-character escaped
newline marker or an actual newline, leftmost match first. -/
def splitLinesAux : List Char → List Char → List (List Char)
  | [], cur => [cur]
  | '\\' :: 'n' :: rest, cur => cur :: splitLinesAux rest []
  | '\n' :: rest, cur => cur :: splitLinesAux rest []
  | c :: rest, cur => splitLinesAux rest (cur ++ [c])

/-- The line split of a span text. -/
def splitLines (s : List Char) : List (List Char) := splitLinesAux s []

/-- The styled run emitted for one script segment of one line of a span. -/
def runForSegment (span : TextSpan) (sizeCat : Option (List Char))
    (blockType : Option BlockType) (target : TargetApp) (seg : Segment) : DocxRun :=
  let dec := mapTextDecorationToDocx span.textDecoration
  DocxRun.textRun seg.text (some (runBold span)) span.isItalic
    (some (mapFontFamilyToDocx seg.script span.fontFamily target))
    (some (mapFontSizeToDocx sizeCat blockType))
    (spanColorOf span) dec.1 dec.2

/-- The runs emitted for one line of a span: one styled run per script
segment of the line. -/
def runsForLine (span : TextSpan) (sizeCat : Option (List Char)) (lang : Language)
    (target : TargetApp) (blockType : Option BlockType) (lineText : List Char) :
    List DocxRun :=
  (segmentLine lang lineText).map (runForSegment span sizeCat blockType target)

/-- The per-span loop of createTextRunsFromSpans: the span text is split on
newline markers; a genuinely empty line among several contributes only a
break (and only when not last); any other line contributes its segment runs
plus a break when not last. -/
def runsForSpan (span : TextSpan) (sizeCat : Option (List Char)) (lang : Language)
    (target : TargetApp) (blockType : Option BlockType) : List DocxRun :=
  let textLines := splitLines span.text
  (textLines.enum.map (fun p =>
    if p.2 = [] ∧ 1 < textLines.length then
      if p.1 < textLines.length - 1 then [DocxRun.lineBreak] else []
    else
      runsForLine span sizeCat lang target blockType p.2 ++
        (if p.1 < textLines.length - 1 then [DocxRun.lineBreak] else []))).join

/-- createTextRunsFromSpans from the source. The block font family
suggestion parameter of the source is forwarded to mapFontFamilyToDocx
there but never read by it, and is omitted here. -/
def createTextRunsFromSpans (spans : List TextSpan)
    (defaultFontSizeCategoryForBlock : Option (List Char))
    (blockLanguageFromAI : Language) (targetApplication : TargetApp)
    (defaultBlockType : Option BlockType) : List DocxRun :=
  (spans.map (fun span =>
    runsForSpan span defaultFontSizeCategoryForBlock blockLanguageFromAI
      targetApplication defaultBlockType)).join

/-- TableCell from the data model; the id and isHeader fields are never
read by the generator and are omitted. The language field is the one the
generator reads defensively off the cell before falling back to the
table's. -/
structure TableCell where
  content : List TextSpan
  colSpan : Option Nat := none
  rowSpan : Option Nat := none
  alignment : Option TextAlign := none
  backgroundColor : Option (List Char) := none
  borderColor : Option (List Char) := none
  borderWidth : Option (List Char) := none
  fontSizeCategory : Option (List Char) := none
  language : Option Language := none
deriving DecidableEq, Repr

/-- TableRow from the data model; the id field is never read. -/
structure TableRow where
  cells : List TableCell
deriving DecidableEq, Repr

/-- FormattedTableBlock from the data model; id and cellSpacing are never
read by the generator and are omitted. -/
structure FormattedTableBlock where
  language : Language
  rows : List TableRow
  caption : Option (List TextSpan) := none
  tableWidth : Option (List Char) := none
  cellPadding : Option (List Char) := none
  borderColor : Option (List Char) := none
  borderWidth : Option (List Char) := none
deriving DecidableEq, Repr

/-- FormattedParagraphBlock from the data model; id is never read, and the
fontFamilySuggestion field is forwarded but never read downstream. -/
structure FormattedParagraphBlock where
  blockType : BlockType
  language : Language
  alignment : TextAlign
  fontSizeCategory : List Char
  lineHeight : Option (List Char) := none
  spaceAfter : Option (List Char) := none
  spans : List TextSpan
deriving DecidableEq, Repr

/-- The FormattedBlock tagged union of the data model. -/
inductive FormattedBlock where
  | para (p : FormattedParagraphBlock)
  | table (t : FormattedTableBlock)
deriving DecidableEq, Repr

/-- One resolved border edge: size in points (float in the source, exact ℚ
here) and a color string. -/
structure BorderEdge where
  size : ℚ
  color : List Char
deriving DecidableEq, Repr

/-- The four borders of an output cell. -/
structure CellBorders where
  top : BorderEdge
  bottom : BorderEdge
  left : BorderEdge
  right : BorderEdge
deriving DecidableEq, Repr

/-- JS x || y over an optional string: y when x is absent or empty. -/
def jsOr (a : Option (List Char)) (b : List Char) : List Char :=
  match a with
  | some s => if s = [] then b else s
  | none => b

/-- The border computation of the table cell branch of the source: size =
parseUnitValueToTwips(cell.borderWidth || table.borderWidth || 1pt, 20)
divided by 20 (a float division, modelled in ℚ), color = (cell.borderColor
|| table.borderColor || #000000) with its first # removed; the same pair is
applied to all four edges. -/
def resolveCellBorders (cellBorderWidth cellBorderColor
    tableBorderWidth tableBorderColor : Option (List Char)) : CellBorders :=
  let widthToken := jsOr cellBorderWidth (jsOr tableBorderWidth (("1pt").data))
  let borderSize : ℚ := (parseUnitValueToTwips (some widthToken) 20 : ℚ) / 20
  let colorToken := jsOr cellBorderColor (jsOr tableBorderColor (("#000000").data))
  let borderColor := replaceFirstHash colorToken
  ⟨⟨borderSize, borderColor⟩, ⟨borderSize, borderColor⟩,
   ⟨borderSize, borderColor⟩, ⟨borderSize, borderColor⟩⟩

/-- The shading guard of the source: /^#[0-9A-Fa-f]{3,6}$/i (the
case-insensitive flag adds nothing, the class already has both cases). -/
def isValidBgColor (s : List Char) : Bool :=
  match s with
  | '#' :: rest => decide (3 ≤ rest.length ∧ rest.length ≤ 6) && rest.all isHexDigitChar
  | _ => false

/-- The docx VerticalMergeType values. -/
inductive VMergeKind where
  | restart
  | continued
deriving DecidableEq, Repr

/-- One output paragraph of the document tree. -/
structure DocxParagraph where
  children : List DocxRun
  alignment : DocxAlignment
  heading : Option HeadingLevel := none
  spacingAfter : Option Nat := none
  spacingLine : Option LineSpacing := none
  styleId : Option String := none
deriving DecidableEq, Repr

/-- Cell margins in twips. -/
structure Margins where
  top : Nat
  bottom : Nat
  left : Nat
  right : Nat
deriving DecidableEq, Repr

/-- One output table cell of the document tree. -/
structure DocxTableCellOut where
  children : List DocxParagraph
  columnSpan : Option Nat
  rowSpan : Option Nat
  verticalMerge : Option VMergeKind
  shading : Option (List Char)
  margins : Margins
  borders : CellBorders
deriving DecidableEq, Repr

/-- One output table row. -/
structure DocxTableRowOut where
  cells : List DocxTableCellOut
deriving DecidableEq, Repr

/-- One output table with its width in percent. -/
structure DocxTableOut where
  rows : List DocxTableRowOut
  widthPercent : ℚ
deriving DecidableEq, Repr

/-- One element of the document body. -/
inductive DocxContent where
  | paragraph (p : DocxParagraph)
  | table (t : DocxTableOut)
deriving DecidableEq, Repr

/-- The per-cell body of createDocumentContent's table branch. -/
def buildDocxCell (tableBlock : FormattedTableBlock) (target : TargetApp)
    (cell : TableCell) : DocxTableCellOut :=
  let cellEffectiveLanguage := cell.language.getD tableBlock.language
  let cellContentRuns := createTextRunsFromSpans cell.content cell.fontSizeCategory
      cellEffectiveLanguage target none
  let cellParagraphs :=
    if cellContentRuns ≠ [] then
      [{ children := cellContentRuns,
         alignment := mapAlignmentToDocx cell.alignment : DocxParagraph }]
    else
      [{ children := [DocxRun.textRun [] none none none
            (some (mapFontSizeToDocx cell.fontSizeCategory none)) none false false],
         alignment := mapAlignmentToDocx cell.alignment : DocxParagraph }]
  let shading :=
    match cell.backgroundColor with
    | some bg => if bg ≠ [] ∧ isValidBgColor bg = true then some (replaceFirstHash bg) else none
    | none => none
  let margins :=
    match tableBlock.cellPadding with
    | some pad =>
        if pad ≠ [] then
          { top := parseUnitValueToTwips (some pad) 0,
            bottom := parseUnitValueToTwips (some pad) 0,
            left := parseUnitValueToTwips (some pad) 0,
            right := parseUnitValueToTwips (some pad) 0 : Margins }
        else ⟨80, 80, 80, 80⟩
    | none => ⟨80, 80, 80, 80⟩
  { children := cellParagraphs,
    columnSpan := cell.colSpan,
    rowSpan := cell.rowSpan,
    verticalMerge :=
      match cell.rowSpan with
      | some rs => if 1 < rs then some VMergeKind.restart else none
      | none => none,
    shading := shading,
    margins := margins,
    borders := resolveCellBorders cell.borderWidth cell.borderColor
        tableBlock.borderWidth tableBlock.borderColor }

/-- The per-row body of the table branch: one output cell per input cell. -/
def buildDocxRow (tableBlock : FormattedTableBlock) (target : TargetApp)
    (row : TableRow) : DocxTableRowOut :=
  ⟨row.cells.map (buildDocxCell tableBlock target)⟩

/-- endsWith of the percent sign. -/
def endsWithPercent (s : List Char) : Bool :=
  match s.getLast? with
  | some c => c = '%'
  | none => false

/-- The table width in percent: a percent-suffixed token parses with
parseFloat, anything else or absence gives 100. A percent token with no
numeric prefix produces NaN in the source; that degenerate value is
modelled as the default 100. -/
def tableWidthPercent (tableWidth : Option (List Char)) : ℚ :=
  match tableWidth with
  | some s => if endsWithPercent s then (parseFloatPrefix s).getD 100 else 100
  | none => 100

/-- The caption paragraph emitted before a table when a non-empty caption is
present: its runs are built at size pt10 with the table's language, and the
paragraph is centered with the Caption style. -/
def buildCaptionParagraphs (tableBlock : FormattedTableBlock) (target : TargetApp) :
    List DocxParagraph :=
  match tableBlock.caption with
  | some cap =>
      if cap ≠ [] then
        [{ children := createTextRunsFromSpans cap (some (("pt10").data))
              tableBlock.language target none,
           alignment := DocxAlignment.center,
           styleId := some "Caption" }]
      else []
  | none => []

/-- blockType.startsWith of heading. -/
def isHeadingBlockType : BlockType → Bool
  | .heading1 => true
  | .heading2 => true
  | .heading3 => true
  | .heading4 => true
  | .heading5 => true
  | .heading6 => true
  | _ => false

/-- createDocumentContent from the source: each block yields a list of body
elements (a caption paragraph may precede its table) and the lists are
flattened. -/
def createDocumentContent (blocks : List FormattedBlock) (target : TargetApp) :
    List DocxContent :=
  (blocks.map (fun block =>
    match block with
    | .table tableBlock =>
        let docxRows := tableBlock.rows.map (buildDocxRow tableBlock target)
        (buildCaptionParagraphs tableBlock target).map DocxContent.paragraph ++
          [DocxContent.table ⟨docxRows, tableWidthPercent tableBlock.tableWidth⟩]
    | .para paraBlock =>
        let currentFontSizePt := parsePtStringToNumber (some paraBlock.fontSizeCategory) 11
        let paragraphLineSpacing := getLineSpacing paraBlock.lineHeight currentFontSizePt
        let defaultSpaceAfterTwips := if isHeadingBlockType paraBlock.blockType then 200 else 100
        let spaceAfterTwips := parseUnitValueToTwips paraBlock.spaceAfter defaultSpaceAfterTwips
        let docxSpans := createTextRunsFromSpans paraBlock.spans
            (some paraBlock.fontSizeCategory) paraBlock.language target
            (some paraBlock.blockType)
        let headingLevel := getHeadingLevelFromBlockType paraBlock.blockType
        [DocxContent.paragraph
          { children := if docxSpans ≠ [] then docxSpans
                        else [DocxRun.textRun [] none none none none none false false],
            alignment := mapAlignmentToDocx (some paraBlock.alignment),
            heading := headingLevel,
            spacingAfter := some spaceAfterTwips,
            spacingLine := some paragraphLineSpacing,
            styleId := if headingLevel.isSome then none else some "NormalParcelStyle" }])).join

/-- One entry of the style registry of generateDocx. -/
structure ParagraphStyle where
  id : String
  runFont : Option String := none
  runSize : Option Nat := none
  runBold : Bool := false
  runItalics : Bool := false
  alignment : Option DocxAlignment := none
  spacingBefore : Option Nat := none
  spacingAfter : Option Nat := none
  spacingLine : Option LineSpacing := none
deriving DecidableEq, Repr

/-- The document style block: default run font and size plus the paragraph
style registry. -/
structure DocxStyles where
  defaultRunFont : String
  defaultRunSize : Nat
  paragraphStyles : List ParagraphStyle
deriving DecidableEq, Repr

/-- The assembled document object. -/
structure DocxDocument where
  sections : List DocxContent
  styles : DocxStyles
  creator : String
  title : String
deriving DecidableEq, Repr

/-- The fixed paragraph style registry of generateDocx: the normal style,
the caption style and the six heading styles with their sizes, spacing
and line spacing exactly as the source constants compute them. -/
def buildParagraphStyles (baseFont : String) (baseFontSizeHalfPoints : Nat) :
    List ParagraphStyle :=
  [{ id := "NormalParcelStyle", runFont := some baseFont,
     runSize := some baseFontSizeHalfPoints },
   { id := "Caption", runFont := some baseFont, runSize := some 18, runItalics := true,
     alignment := some DocxAlignment.center, spacingAfter := some 120 },
   { id := "Heading1", runFont := some baseFont,
     runSize := some (mapFontSizeToDocx (some (("pt22").data)) (some BlockType.heading1)),
     runBold := true, spacingBefore := some 240,
     spacingAfter := some (parseUnitValueToTwips none 240),
     spacingLine := some (getLineSpacing (some (("1.2").data)) 22) },
   { id := "Heading2", runFont := some baseFont,
     runSize := some (mapFontSizeToDocx (some (("pt16").data)) (some BlockType.heading2)),
     runBold := true, spacingBefore := some 220,
     spacingAfter := some (parseUnitValueToTwips none 220),
     spacingLine := some (getLineSpacing (some (("1.2").data)) 16) },
   { id := "Heading3", runFont := some baseFont,
     runSize := some (mapFontSizeToDocx (some (("pt13").data)) (some BlockType.heading3)),
     runBold := true, spacingBefore := some 200,
     spacingAfter := some (parseUnitValueToTwips none 200),
     spacingLine := some (getLineSpacing (some (("1.3").data)) 13) },
   { id := "Heading4", runFont := some baseFont,
     runSize := some (mapFontSizeToDocx (some (("pt11").data)) (some BlockType.heading4)),
     runBold := true, spacingBefore := some 180,
     spacingAfter := some (parseUnitValueToTwips none 180),
     spacingLine := some (getLineSpacing (some (("1.4").data)) 11) },
   { id := "Heading5", runFont := some baseFont,
     runSize := some (mapFontSizeToDocx (some (("pt10").data)) (some BlockType.heading5)),
     runBold := true, spacingBefore := some 160,
     spacingAfter := some (parseUnitValueToTwips none 160),
     spacingLine := some (getLineSpacing (some (("1.4").data)) 10) },
   { id := "Heading6", runFont := some baseFont,
     runSize := some (mapFontSizeToDocx (some (("pt9").data)) (some BlockType.heading6)),
     runBold := true, spacingBefore := some 140,
     spacingAfter := some (parseUnitValueToTwips none 140),
     spacingLine := some (getLineSpacing (some (("1.5").data)) 9) }]

/-- generateDocx's document assembly: the body from createDocumentContent,
the profile-dependent base font, the default run style, the style registry
and the fixed creator and title strings. -/
def buildDocxDocument (blocks : List FormattedBlock) (targetApplication : TargetApp) :
    DocxDocument :=
  let baseFont :=
    match targetApplication with
    | .word => "Calibri"
    | .gdocs => "Open Sans"
  let baseFontSizeHalfPoints := mapFontSizeToDocx (some (("pt11").data)) none
  { sections := createDocumentContent blocks targetApplication,
    styles := { defaultRunFont := baseFont, defaultRunSize := baseFontSizeHalfPoints,
                paragraphStyles := buildParagraphStyles baseFont baseFontSizeHalfPoints },
    creator := "Smart Lipikor",
    title := "Extracted Document Content" }

/-- Modelled from the spec: the Document Packager's binary serialization
(the docx library's Packer, which is not part of this repository's sources)
is, per section 5 of the spec, a single synchronous side-effect-free
transformation of the assembled document tree into a binary payload; it is
modelled as a pure encoding of the tree into bytes, here the code points of
a canonical rendering of the tree. -/
def packerToBlob (doc : DocxDocument) : List Nat :=
  (reprStr doc).data.map Char.toNat

/-- generateDocx from the source, modulo the browser file save: assemble the
document tree from the block list and the target profile, then serialize
it. -/
def generateDocx (blocks : List FormattedBlock) (targetApplication : TargetApp) :
    List Nat :=
  packerToBlob (buildDocxDocument blocks targetApplication)

/-- An input cell the builder must treat as a merge-origin: its rowSpan is
present and greater than one. -/
def isSpanningCell (cell : TableCell) : Bool :=
  match cell.rowSpan with
  | some rs => decide (1 < rs)
  | none => false

/-- The number of input cells with a rowSpan greater than one. -/
def countSpanningCells (rows : List TableRow) : Nat :=
  (rows.map (fun r => r.cells.countP (fun c => isSpanningCell c))).sum

/-- The number of output cells carrying the restart merge marker. -/
def countRestartCells (rows : List DocxTableRowOut) : Nat :=
  (rows.map (fun r =>
    r.cells.countP (fun c => decide (c.verticalMerge = some VMergeKind.restart)))).sum

lemma buildDocxCell_restart (tb : FormattedTableBlock) (target : TargetApp)
    (cell : TableCell) :
    decide ((buildDocxCell tb target cell).verticalMerge = some VMergeKind.restart)
      = isSpanningCell cell := by
  cases h : cell.rowSpan with
  | none => simp [buildDocxCell, isSpanningCell, h]
  | some rs => by_cases h1 : 1 < rs <;> simp [buildDocxCell, isSpanningCell, h, h1]

lemma countRestart_eq (tb : FormattedTableBlock) (target : TargetApp) :
    countRestartCells (tb.rows.map (buildDocxRow tb target)) = countSpanningCells tb.rows := by
  unfold countRestartCells countSpanningCells
  rw [List.map_map]
  congr 1
  apply List.map_congr_left
  intro r _
  show ((buildDocxRow tb target r).cells).countP
      (fun c => decide (c.verticalMerge = some VMergeKind.restart))
    = r.cells.countP (fun c => isSpanningCell c)
  unfold buildDocxRow
  rw [List.countP_map]
  apply List.countP_congr
  intro c _
  show decide ((buildDocxCell tb target c).verticalMerge = some VMergeKind.restart) = true
      ↔ isSpanningCell c = true
  rw [buildDocxCell_restart tb target c]

/-- C3: for a table with exactly one rowSpan-greater-than-one cell the
builder output carries exactly one restart merge-origin marker; the builder
maps input cells to output cells one-to-one (the spanning cell yields
exactly one output cell, the origin - no second independent cell is
fabricated, the continuation representation being the Packager's job), and
the rowSpan passes through to the output cell; the restart marker sits on
an output cell exactly when its input cell spans. -/
theorem table_rowSpan_merge_origin (tb : FormattedTableBlock) (target : TargetApp)
    (h : countSpanningCells tb.rows = 1) :
    countRestartCells (tb.rows.map (buildDocxRow tb target)) = 1 ∧
    (∀ row ∈ tb.rows, ((buildDocxRow tb target row).cells).length = row.cells.length) ∧
    (∀ row ∈ tb.rows, ∀ cell ∈ row.cells,
      (buildDocxCell tb target cell).rowSpan = cell.rowSpan ∧
      ((buildDocxCell tb target cell).verticalMerge = some VMergeKind.restart ↔
        isSpanningCell cell = true)) := by
  refine ⟨by rw [countRestart_eq]; exact h, ?_, ?_⟩
  · intro row _
    unfold buildDocxRow
    simp
  · intro row _ cell _
    refine ⟨rfl, ?_⟩
    constructor
    · intro hv
      have hd : decide ((buildDocxCell tb target cell).verticalMerge
          = some VMergeKind.restart) = true := decide_eq_true hv
      rw [buildDocxCell_restart tb target cell] at hd
      exact hd
    · intro hs
      refine of_decide_eq_true ?_
      rw [buildDocxCell_restart tb target cell]
      exact hs

/-- A one-character latin span used by the concrete witnesses. -/
def witnessSpan : TextSpan := { text := ("x").data }

/-- A concrete cell spanning two rows. -/
def witnessCellSpan2 : TableCell := { content := [witnessSpan], rowSpan := some 2 }

/-- A concrete plain cell. -/
def witnessCellPlain : TableCell := { content := [witnessSpan] }

/-- A concrete two-row table whose first row starts with the spanning cell;
the second row omits the spanned column position. -/
def witnessTable : FormattedTableBlock :=
  { language := Language.en,
    rows := [⟨[witnessCellSpan2, witnessCellPlain]⟩, ⟨[witnessCellPlain]⟩] }

/-- Closed instance of table_rowSpan_merge_origin at the concrete two-row
table with one rowSpan = 2 cell. -/
theorem table_rowSpan_merge_origin_witness :
    countRestartCells (witnessTable.rows.map (buildDocxRow witnessTable TargetApp.word)) = 1 ∧
    (∀ row ∈ witnessTable.rows,
      ((buildDocxRow witnessTable TargetApp.word row).cells).length = row.cells.length) ∧
    (∀ row ∈ witnessTable.rows, ∀ cell ∈ row.cells,
      (buildDocxCell witnessTable TargetApp.word cell).rowSpan = cell.rowSpan ∧
      ((buildDocxCell witnessTable TargetApp.word cell).verticalMerge
          = some VMergeKind.restart ↔ isSpanningCell cell = true)) :=
  table_rowSpan_merge_origin witnessTable TargetApp.word (by decide)

/-- The spec's first-present-wins lookup over an optional token. -/
def firstPresent (a : Option (List Char)) (b : List Char) : List Char := a.getD b

/-- The four-edge border record the spec's fallback chain describes, built
from a chosen width token and a chosen color token. -/
def borderFromTokens (widthToken colorToken : List Char) : CellBorders :=
  let sz : ℚ := (parseUnitValueToTwips (some widthToken) 20 : ℚ) / 20
  let col := replaceFirstHash colorToken
  ⟨⟨sz, col⟩, ⟨sz, col⟩, ⟨sz, col⟩, ⟨sz, col⟩⟩

lemma jsOr_eq_firstPresent (a : Option (List Char)) (b : List Char)
    (h : ∀ s, a = some s → s ≠ []) : jsOr a b = firstPresent a b := by
  cases a with
  | none => rfl
  | some s => simp [jsOr, firstPresent, h s rfl]

/-- C8: the border color and width of every edge of an output cell are
resolved by the three-level first-present-wins fallback cell border ->
table border -> fixed document default, the same value on all four edges;
and when neither the cell nor the table specifies a border, every edge gets
the fixed default of one point black. -/
theorem cell_border_three_level_fallback (tb : FormattedTableBlock)
    (cell : TableCell) (target : TargetApp)
    (hcw : ∀ s, cell.borderWidth = some s → s ≠ [])
    (hcc : ∀ s, cell.borderColor = some s → s ≠ [])
    (htw : ∀ s, tb.borderWidth = some s → s ≠ [])
    (htc : ∀ s, tb.borderColor = some s → s ≠ []) :
    (buildDocxCell tb target cell).borders =
      borderFromTokens
        (firstPresent cell.borderWidth (firstPresent tb.borderWidth (("1pt").data)))
        (firstPresent cell.borderColor (firstPresent tb.borderColor (("#000000").data))) ∧
    (cell.borderWidth = none → cell.borderColor = none →
     tb.borderWidth = none → tb.borderColor = none →
      (buildDocxCell tb target cell).borders =
        ⟨⟨1, ("000000").data⟩, ⟨1, ("000000").data⟩,
         ⟨1, ("000000").data⟩, ⟨1, ("000000").data⟩⟩) := by
  have hb : (buildDocxCell tb target cell).borders
      = borderFromTokens (jsOr cell.borderWidth (jsOr tb.borderWidth (("1pt").data)))
          (jsOr cell.borderColor (jsOr tb.borderColor (("#000000").data))) := rfl
  constructor
  · rw [hb, jsOr_eq_firstPresent _ _ hcw, jsOr_eq_firstPresent _ _ htw,
        jsOr_eq_firstPresent _ _ hcc, jsOr_eq_firstPresent _ _ htc]
  · intro e1 e2 e3 e4
    rw [hb, e1, e2, e3, e4]
    show borderFromTokens (("1pt").data) (("#000000").data) = _
    have hw : parseUnitValueToTwips (some (("1pt").data)) 20 = 20 := by decide
    have hcol : replaceFirstHash (("#000000").data) = ("000000").data := by decide
    simp only [borderFromTokens, hw, hcol]
    norm_num

/-- A concrete table with no table-wide borders. -/
def witnessBareTable : FormattedTableBlock := { language := Language.en, rows := [] }

/-- A concrete cell with no cell borders. -/
def witnessBareCell : TableCell := { content := [] }

/-- Closed instance of cell_border_three_level_fallback at a cell and table
with no explicit borders: every edge resolves to one point black. -/
theorem cell_border_fallback_witness :
    (buildDocxCell witnessBareTable TargetApp.word witnessBareCell).borders =
      borderFromTokens
        (firstPresent witnessBareCell.borderWidth
          (firstPresent witnessBareTable.borderWidth (("1pt").data)))
        (firstPresent witnessBareCell.borderColor
          (firstPresent witnessBareTable.borderColor (("#000000").data))) ∧
    (witnessBareCell.borderWidth = none → witnessBareCell.borderColor = none →
     witnessBareTable.borderWidth = none → witnessBareTable.borderColor = none →
      (buildDocxCell witnessBareTable TargetApp.word witnessBareCell).borders =
        ⟨⟨1, ("000000").data⟩, ⟨1, ("000000").data⟩,
         ⟨1, ("000000").data⟩, ⟨1, ("000000").data⟩⟩) :=
  cell_border_three_level_fallback witnessBareTable witnessBareCell TargetApp.word
    (fun _ h => Option.noConfusion h) (fun _ h => Option.noConfusion h)
    (fun _ h => Option.noConfusion h) (fun _ h => Option.noConfusion h)

/-- C9: the pipeline from block list and profile to serialized payload is
deterministic: two invocations on equal inputs produce byte-identical
output. -/
theorem generateDocx_deterministic (blocks1 blocks2 : List FormattedBlock)
    (t1 t2 : TargetApp) (hb : blocks1 = blocks2) (ht : t1 = t2) :
    generateDocx blocks1 t1 = generateDocx blocks2 t2 := by
  rw [hb, ht]

/-- Closed instance of generateDocx_deterministic at a concrete input. -/
theorem generateDocx_deterministic_witness :
    generateDocx [FormattedBlock.table witnessTable] TargetApp.word
      = generateDocx [FormattedBlock.table witnessTable] TargetApp.word :=
  generateDocx_deterministic [FormattedBlock.table witnessTable]
    [FormattedBlock.table witnessTable] TargetApp.word TargetApp.word rfl rfl

end SmartLipikor
